import Mathlib

/-!
Shallow embedding of the TypeScript capability-provider plugin
(src/src/plugins/TypeScriptPlugin.ts) of the svelte-language-server
repository, together with theorems settling the spec claims.

The plugin's four operations (diagnostics, hover, document symbols,
completions) are embedded as pure functions.  Each returns its result
paired with the ordered log of calls it performs against the analysis
context cache / engine, so that "performs zero engine calls" is a
statement about the log.  Helpers imported from modules that are not
part of the provided source (the `../api` data shapes, the
`./typescript/utils` translation tables and `./typescript/service`
cache) are modelled from the spec, as marked on each such definition.
-/

set_option autoImplicit false

namespace SvelteLS

/-- A (line, character) position in host document space. -/
structure Position where
  line : Nat
  character : Nat
deriving DecidableEq

/-- Modelled from the spec: the host api's Range shape, a pair of positions. -/
structure Range where
  start : Position
  «end» : Position
deriving DecidableEq

/-- Modelled from the spec: the host api's Location shape (uri plus range). -/
structure Location where
  uri : String
  range : Range
deriving DecidableEq

/-- Symbol kinds are an enumerated code; the numeric code space of the host api. -/
abbrev SymbolKind := Nat

/-- Modelled from the spec: the host api's SymbolInformation record
(name, kind, location, optional containing-symbol name). -/
structure SymbolInformation where
  name : String
  kind : SymbolKind
  location : Location
  containerName : Option String
deriving DecidableEq

/-- Modelled from the spec: the host api's SymbolInformation.create helper. -/
def SymbolInformation.create (name : String) (kind : SymbolKind) (range : Range)
    (uri : String) (containerName : Option String) : SymbolInformation :=
  { name := name, kind := kind, location := { uri := uri, range := range },
    containerName := containerName }

/-- Modelled from the spec: the host api's diagnostic severity enumeration. -/
inductive DiagnosticSeverity where
  | Error
  | Warning
  | Information
  | Hint
deriving DecidableEq

/-- Modelled from the spec: the host api's Diagnostic record. -/
structure Diagnostic where
  range : Range
  severity : DiagnosticSeverity
  source : String
  message : String
deriving DecidableEq

/-- Modelled from the spec: the host api's hover content, a language-tagged string. -/
structure MarkedString where
  language : String
  value : String
deriving DecidableEq

/-- Modelled from the spec: the host api's Hover record. -/
structure Hover where
  range : Range
  contents : MarkedString
deriving DecidableEq

/-- Modelled from the spec: the host api's CompletionItem record. -/
structure CompletionItem where
  label : String
  kind : Nat
  sortText : String
  commitCharacters : Option (List String)
  preselect : Bool
deriving DecidableEq

/-- An engine text span: character offset plus length (engine space). -/
structure TextSpan where
  start : Nat
  length : Nat
deriving DecidableEq

/-- An engine diagnostic as consumed by the plugin: a span and a message text.
The engine's structured message chains are abstracted to the text handed to
its flattener. -/
structure TsDiagnostic where
  start : Nat
  length : Nat
  messageText : String
deriving DecidableEq

/-- An engine quick-info payload: the hovered span and its display parts. -/
structure QuickInfo where
  textSpan : TextSpan
  displayParts : List String
deriving DecidableEq

/-- The options record the plugin passes to the engine's completion query. -/
structure GetCompletionsAtPositionOptions where
  includeCompletionsForModuleExports : Bool
  triggerCharacter : Option String
deriving DecidableEq

/-- An engine completion entry as consumed by the plugin. -/
structure CompletionEntry where
  name : String
  kind : String
  sortText : String
  isRecommended : Bool
deriving DecidableEq

/-- An engine completion response. -/
structure CompletionInfo where
  entries : List CompletionEntry
deriving DecidableEq

/-- The engine's hierarchical navigation tree: display text, kind tag,
zero or more spans, and child nodes. -/
inductive NavigationTree where
  | mk (text : String) (kind : String) (spans : List TextSpan)
      (childItems : List NavigationTree)

def NavigationTree.text : NavigationTree → String
  | .mk t _ _ _ => t

def NavigationTree.kind : NavigationTree → String
  | .mk _ k _ _ => k

def NavigationTree.spans : NavigationTree → List TextSpan
  | .mk _ _ s _ => s

def NavigationTree.childItems : NavigationTree → List NavigationTree
  | .mk _ _ _ c => c

/-- The engine's script-kind enumeration (ts.ScriptKind). -/
inductive ScriptKind where
  | Unknown
  | JS
  | JSX
  | TS
  | TSX
  | External
deriving DecidableEq

/-- A host document, reduced to the operations the plugin reads from it. -/
structure Document where
  getFilePath : String
  getURL : String
  getAttributes : List (String × String)
  positionAt : Nat → Position
  offsetAt : Position → Nat

/-- The engine language service interface the plugin queries. -/
structure LanguageService where
  getSyntacticDiagnostics : String → List TsDiagnostic
  getSemanticDiagnostics : String → List TsDiagnostic
  getQuickInfoAtPosition : String → Nat → Option QuickInfo
  getNavigationTree : String → NavigationTree
  getCompletionsAtPosition :
    String → Nat → GetCompletionsAtPositionOptions → Option CompletionInfo

/-- The host's process-wide configuration lookup, read by string key. -/
structure Host where
  getConfig : String → Bool

/-- Modelled from the spec: the helpers imported from ./typescript/utils and
the engine's pure text renderers, whose code is not under the provided source:
the script-kind reading of a document's attributes, the enumerated
symbol-kind and completion-kind translation tables, the fixed per-kind
commit-character table, and the engine's message / display-part renderers.
They are carried as abstract parameters, quantified over in the theorems. -/
structure TsUtils where
  getScriptKindFromAttributes : List (String × String) → ScriptKind
  symbolKindFromString : String → SymbolKind
  scriptElementKindToCompletionItemKind : String → Nat
  getCommitCharactersForScriptElement : String → Option (List String)
  flattenDiagnosticMessageText : String → String → String
  displayPartsToString : List String → String

/-- Modelled from the spec: §4.1 Coordinate Translator — an engine
{start, length} span maps to the host range from positionAt(start) to
positionAt(start + length), via the document's own conversion. -/
def convertRange (document : Document) (start length : Nat) : Range :=
  { start := document.positionAt start
    «end» := document.positionAt (start + length) }

/-- One call performed by an operation against the analysis-context cache
(which resolves the virtual document through the factory) or the engine. -/
inductive BridgeCall where
  | getLanguageServiceForDocument
  | getSyntacticDiagnostics (fileName : String)
  | getSemanticDiagnostics (fileName : String)
  | getQuickInfoAtPosition (fileName : String) (offset : Nat)
  | getNavigationTree (fileName : String)
  | getCompletionsAtPosition (fileName : String) (offset : Nat)
      (options : GetCompletionsAtPositionOptions)
deriving DecidableEq

/-- Embedding of TypeScriptPlugin.getDiagnostics.  The resolver argument
stands for getLanguageServiceForDocument (the analysis-context cache, whose
code is not under the provided source).  Returns the diagnostics paired with
the ordered log of cache/engine calls performed. -/
def getDiagnostics (host : Host) (utils : TsUtils)
    (getService : Document → LanguageService) (document : Document) :
    List Diagnostic × List BridgeCall :=
  if !(host.getConfig ("typescript.diagnostics.enable")) then ([], [])
  else
    let lang := getService document
    let isTypescript :=
      utils.getScriptKindFromAttributes document.getAttributes = ScriptKind.TS
    let syntactic := lang.getSyntacticDiagnostics document.getFilePath
    let diagnostics :=
      if isTypescript then
        syntactic ++ lang.getSemanticDiagnostics document.getFilePath
      else syntactic
    (diagnostics.map fun diagnostic =>
      { range := convertRange document diagnostic.start diagnostic.length
        severity := DiagnosticSeverity.Error
        source := if isTypescript then ("ts") else ("js")
        message := utils.flattenDiagnosticMessageText diagnostic.messageText ("\n") },
     [BridgeCall.getLanguageServiceForDocument,
      BridgeCall.getSyntacticDiagnostics document.getFilePath] ++
       (if isTypescript then
          [BridgeCall.getSemanticDiagnostics document.getFilePath]
        else []))

/-- Embedding of TypeScriptPlugin.doHover. -/
def doHover (host : Host) (utils : TsUtils)
    (getService : Document → LanguageService) (document : Document)
    (position : Position) : Option Hover × List BridgeCall :=
  if !(host.getConfig ("typescript.hover.enable")) then (none, [])
  else
    let lang := getService document
    let offset := document.offsetAt position
    let info := lang.getQuickInfoAtPosition document.getFilePath offset
    let log := [BridgeCall.getLanguageServiceForDocument,
      BridgeCall.getQuickInfoAtPosition document.getFilePath offset]
    match info with
    | none => (none, log)
    | some info =>
      (some { range := convertRange document info.textSpan.start info.textSpan.length
              contents := { language := ("ts")
                            value := utils.displayPartsToString info.displayParts } },
       log)

mutual

/-- Embedding of the local collectSymbols of getDocumentSymbols: emit the
node when it has a first and a last span, then visit the children with the
node's own text as their container. -/
def collectSymbols (document : Document) (utils : TsUtils)
    (tree : NavigationTree) (container : Option String) : List SymbolInformation :=
  match tree with
  | .mk text kind spans childItems =>
    (match spans.head?, spans.getLast? with
     | some s, some e =>
       [SymbolInformation.create text (utils.symbolKindFromString kind)
          { start := document.positionAt s.start
            «end» := document.positionAt (e.start + e.length) }
          document.getURL container]
     | _, _ => []) ++ collectSymbolsList document utils childItems text

/-- The loop over childItems inside collectSymbols. -/
def collectSymbolsList (document : Document) (utils : TsUtils)
    (trees : List NavigationTree) (container : String) : List SymbolInformation :=
  match trees with
  | [] => []
  | t :: rest =>
    collectSymbols document utils t (some container) ++
      collectSymbolsList document utils rest container

end

/-- Embedding of TypeScriptPlugin.getDocumentSymbols.  The source reads
`symbols[0].name` without a guard: on an empty collected list this throws a
TypeError (reading a property of undefined), which the embedding models as a
`none` first component; `some list` models a normal return. -/
def getDocumentSymbols (host : Host) (utils : TsUtils)
    (getService : Document → LanguageService) (document : Document) :
    Option (List SymbolInformation) × List BridgeCall :=
  if !(host.getConfig ("typescript.documentSymbols.enable")) then (some [], [])
  else
    let lang := getService document
    let navTree := lang.getNavigationTree document.getFilePath
    let symbols := collectSymbols document utils navTree none
    let log := [BridgeCall.getLanguageServiceForDocument,
      BridgeCall.getNavigationTree document.getFilePath]
    match symbols with
    | [] => (none, log)
    | first :: rest =>
      (some (rest.map fun symbol =>
        if symbol.containerName = some first.name then
          { symbol with containerName := some ("script") }
        else symbol), log)

/-- Embedding of TypeScriptPlugin.getCompletions. -/
def getCompletions (host : Host) (utils : TsUtils)
    (getService : Document → LanguageService) (document : Document)
    (position : Position) (triggerCharacter : Option String) :
    List CompletionItem × List BridgeCall :=
  if !(host.getConfig ("typescript.completions.enable")) then ([], [])
  else
    let lang := getService document
    let offset := document.offsetAt position
    let options : GetCompletionsAtPositionOptions :=
      { includeCompletionsForModuleExports := true
        triggerCharacter := triggerCharacter }
    let completions := lang.getCompletionsAtPosition document.getFilePath offset options
    let log := [BridgeCall.getLanguageServiceForDocument,
      BridgeCall.getCompletionsAtPosition document.getFilePath offset options]
    match completions with
    | none => ([], log)
    | some completions =>
      (completions.entries.map fun comp =>
        { label := comp.name
          kind := utils.scriptElementKindToCompletionItemKind comp.kind
          sortText := comp.sortText
          commitCharacters := utils.getCommitCharactersForScriptElement comp.kind
          preselect := comp.isRecommended },
       log)

/-! Concrete fixtures used by the witnesses and counterexamples. -/

/-- A host whose every configuration flag is on. -/
def hostOn : Host := { getConfig := fun _ => true }

/-- A host whose every configuration flag is off. -/
def hostOff : Host := { getConfig := fun _ => false }

/-- A concrete document on a single line: positionAt/offsetAt are the
identity on the character coordinate. -/
def docA : Document :=
  { getFilePath := "/doc.svelte.ts"
    getURL := "file:///doc.svelte.ts"
    getAttributes := [(("lang"), ("ts"))]
    positionAt := fun offset => { line := 0, character := offset }
    offsetAt := fun p => p.character }

/-- Concrete utils reading every document as statically typed. -/
def utilsTS : TsUtils :=
  { getScriptKindFromAttributes := fun _ => ScriptKind.TS
    symbolKindFromString := fun _ => 5
    scriptElementKindToCompletionItemKind := fun _ => 2
    getCommitCharactersForScriptElement := fun _ => some [(".")]
    flattenDiagnosticMessageText := fun message _ => message
    displayPartsToString := String.join }

/-- Concrete utils reading every document as plain (untyped) script. -/
def utilsJS : TsUtils :=
  { utilsTS with getScriptKindFromAttributes := fun _ => ScriptKind.JS }

/-- A language service answering every query with the empty / absent result;
its navigation tree is a single spanless node. -/
def emptyService : LanguageService :=
  { getSyntacticDiagnostics := fun _ => []
    getSemanticDiagnostics := fun _ => []
    getQuickInfoAtPosition := fun _ _ => none
    getNavigationTree := fun _ => NavigationTree.mk ("script") ("module") [] []
    getCompletionsAtPosition := fun _ _ _ => none }

/-- A service reporting one syntactic and one semantic diagnostic. -/
def oneDiagService : LanguageService :=
  { emptyService with
    getSyntacticDiagnostics := fun _ =>
      [{ start := 0, length := 3, messageText := "syn issue" }]
    getSemanticDiagnostics := fun _ =>
      [{ start := 4, length := 1, messageText := "sem issue" }] }

/-- A service reporting quick-info at every position. -/
def infoService : LanguageService :=
  { emptyService with
    getQuickInfoAtPosition := fun _ _ =>
      some { textSpan := { start := 2, length := 3 }
             displayParts := [("let "), ("x")] } }

/-- A service reporting one completion entry, the spec's worked example. -/
def compService : LanguageService :=
  { emptyService with
    getCompletionsAtPosition := fun _ _ _ =>
      some { entries :=
        [{ name := "foo", kind := "method", sortText := "0", isRecommended := true }] } }

/-- The navigation tree of the spec's re-parenting example: a root R (with a
whole-file span) whose child A ([0,5)) has grandchild B ([1,3)). -/
def rabTree : NavigationTree :=
  NavigationTree.mk ("R") ("module") [{ start := 0, length := 5 }]
    [NavigationTree.mk ("A") ("function") [{ start := 0, length := 5 }]
      [NavigationTree.mk ("B") ("function") [{ start := 1, length := 2 }] []]]

/-- The same tree with a spanless root: R emits nothing, so the first
emitted record is the genuine symbol A. -/
def noRootSpanTree : NavigationTree :=
  NavigationTree.mk ("R") ("module") []
    [NavigationTree.mk ("A") ("function") [{ start := 0, length := 5 }]
      [NavigationTree.mk ("B") ("function") [{ start := 1, length := 2 }] []]]

/-- A service serving the spec's re-parenting example tree. -/
def rabService : LanguageService :=
  { emptyService with getNavigationTree := fun _ => rabTree }

/-- A service serving the spanless-root tree. -/
def noRootSpanService : LanguageService :=
  { emptyService with getNavigationTree := fun _ => noRootSpanTree }

/-- The origin position. -/
def posZero : Position := { line := 0, character := 0 }

/-! Theorems settling the claims. -/

/-- The child loop of collectSymbols is the bind of collectSymbols over the
children, each visited with the given container name. -/
theorem collectSymbolsList_eq_bind (document : Document) (utils : TsUtils)
    (trees : List NavigationTree) (container : String) :
    collectSymbolsList document utils trees container =
      trees.flatMap fun c => collectSymbols document utils c (some container) := by
  induction trees with
  | nil => simp [collectSymbolsList]
  | cons t rest ih => simp [collectSymbolsList, ih]

/-- A spanless node contributes no record of its own: the collected list is
exactly the children's, visited with the node's own text as container. -/
theorem collectSymbols_of_spans_nil (document : Document) (utils : TsUtils)
    (tree : NavigationTree) (container : Option String) (h : tree.spans = []) :
    collectSymbols document utils tree container =
      tree.childItems.flatMap fun c =>
        collectSymbols document utils c (some tree.text) := by
  cases tree with
  | mk text kind spans childItems =>
    simp only [NavigationTree.spans] at h
    subst h
    simp [collectSymbols, collectSymbolsList_eq_bind, NavigationTree.childItems,
      NavigationTree.text]

/-- A node with a first and a last span contributes exactly one record, at the
head, ranging from the first span's start to the last span's end, with the
passed container; the children follow, visited under the node's own text. -/
theorem collectSymbols_of_spans_cons (document : Document) (utils : TsUtils)
    (tree : NavigationTree) (container : Option String) (s e : TextSpan)
    (hs : tree.spans.head? = some s) (he : tree.spans.getLast? = some e) :
    collectSymbols document utils tree container =
      SymbolInformation.create tree.text (utils.symbolKindFromString tree.kind)
        { start := document.positionAt s.start
          «end» := document.positionAt (e.start + e.length) }
        document.getURL container ::
        tree.childItems.flatMap fun c =>
          collectSymbols document utils c (some tree.text) := by
  cases tree with
  | mk text kind spans childItems =>
    simp only [NavigationTree.spans] at hs he
    simp only [collectSymbols, NavigationTree.childItems, NavigationTree.text,
      NavigationTree.kind]
    rw [hs, he]
    simp [collectSymbolsList_eq_bind]

/-- C1: the spec promises that a navigation tree with no spans anywhere at any
level yields an empty symbol sequence without an error, but the source reads
the first collected record's name with no emptiness guard, which throws a
TypeError on the empty collected list (modelled as a none result): at the
concrete spanless tree the operation errors instead of returning the empty
sequence. -/
theorem getDocumentSymbols_empty_tree_is_error :
    (getDocumentSymbols hostOn utilsTS (fun _ => emptyService) docA).fst = none := by
  decide

/-- C2 counterexample: on a statically-typed document with engine diagnostics,
the emitted source tag is the string ts, not the string typed, so the claim's
source-tag values are refuted at this concrete input. -/
theorem getDiagnostics_source_label_counterexample :
    ((getDiagnostics hostOn utilsTS (fun _ => oneDiagService) docA).fst.map
        Diagnostic.source = [("ts"), ("ts")]) ∧
      ((("ts" : String) == ("typed")) = false) := by
  exact ⟨by decide, by decide⟩

/-- C2 (amended): with the diagnostics flag on, the result is exactly the
engine diagnostics (syntactic, then semantic when the script kind is
statically typed), each mapped to severity Error uniformly, source tag ts for
a statically-typed script kind and js otherwise, and the engine's message
text flattened to a string. -/
theorem getDiagnostics_diagnostic_mapping (host : Host) (utils : TsUtils)
    (getService : Document → LanguageService) (document : Document)
    (henable : host.getConfig ("typescript.diagnostics.enable") = true) :
    (getDiagnostics host utils getService document).fst =
      (((getService document).getSyntacticDiagnostics document.getFilePath) ++
        (if utils.getScriptKindFromAttributes document.getAttributes = ScriptKind.TS
         then (getService document).getSemanticDiagnostics document.getFilePath
         else [])).map fun diagnostic =>
        { range := convertRange document diagnostic.start diagnostic.length
          severity := DiagnosticSeverity.Error
          source :=
            if utils.getScriptKindFromAttributes document.getAttributes = ScriptKind.TS
            then ("ts") else ("js")
          message := utils.flattenDiagnosticMessageText diagnostic.messageText ("\n") } := by
  by_cases hts :
      utils.getScriptKindFromAttributes document.getAttributes = ScriptKind.TS <;>
    simp [getDiagnostics, henable, hts]

/-- C2 witness: the amended mapping theorem instantiated at concrete fixtures,
evaluated to the two concrete diagnostics. -/
theorem getDiagnostics_diagnostic_mapping_witness :
    hostOn.getConfig ("typescript.diagnostics.enable") = true ∧
    (getDiagnostics hostOn utilsTS (fun _ => oneDiagService) docA).fst =
      [{ range := { start := { line := 0, character := 0 }
                    «end» := { line := 0, character := 3 } }
         severity := DiagnosticSeverity.Error
         source := "ts"
         message := "syn issue" },
       { range := { start := { line := 0, character := 4 }
                    «end» := { line := 0, character := 5 } }
         severity := DiagnosticSeverity.Error
         source := "ts"
         message := "sem issue" }] :=
  ⟨rfl,
   (getDiagnostics_diagnostic_mapping hostOn utilsTS (fun _ => oneDiagService) docA
      rfl).trans (by decide)⟩

/-- C3: each of the four operations, when its own configuration flag is false,
returns the empty or absent result and performs zero calls into the
analysis-context cache (hence the virtual-document factory) or the engine —
its call log is empty. -/
theorem feature_flag_gating (host : Host) (utils : TsUtils)
    (getService : Document → LanguageService) (document : Document)
    (position : Position) (triggerCharacter : Option String) :
    (host.getConfig ("typescript.diagnostics.enable") = false →
      getDiagnostics host utils getService document = ([], [])) ∧
    (host.getConfig ("typescript.hover.enable") = false →
      doHover host utils getService document position = (none, [])) ∧
    (host.getConfig ("typescript.documentSymbols.enable") = false →
      getDocumentSymbols host utils getService document = (some [], [])) ∧
    (host.getConfig ("typescript.completions.enable") = false →
      getCompletions host utils getService document position triggerCharacter
        = ([], [])) := by
  refine ⟨fun h => ?_, fun h => ?_, fun h => ?_, fun h => ?_⟩ <;>
    simp [getDiagnostics, doHover, getDocumentSymbols, getCompletions, h]

/-- C3 witness: the gating theorem instantiated at a host with every flag off. -/
theorem feature_flag_gating_witness :
    hostOff.getConfig ("typescript.diagnostics.enable") = false ∧
    getDiagnostics hostOff utilsTS (fun _ => oneDiagService) docA = ([], []) ∧
    doHover hostOff utilsTS (fun _ => infoService) docA posZero = (none, []) ∧
    getDocumentSymbols hostOff utilsTS (fun _ => rabService) docA = (some [], []) ∧
    getCompletions hostOff utilsTS (fun _ => compService) docA posZero none
      = ([], []) :=
  ⟨rfl,
   (feature_flag_gating hostOff utilsTS (fun _ => oneDiagService) docA posZero
      none).1 rfl,
   (feature_flag_gating hostOff utilsTS (fun _ => infoService) docA posZero
      none).2.1 rfl,
   (feature_flag_gating hostOff utilsTS (fun _ => rabService) docA posZero
      none).2.2.1 rfl,
   (feature_flag_gating hostOff utilsTS (fun _ => compService) docA posZero
      none).2.2.2 rfl⟩

/-- The host-space range from character a to character b on line zero of docA. -/
def lineRange (a b : Nat) : Range :=
  { start := { line := 0, character := a }, «end» := { line := 0, character := b } }

/-- A spanless parent with one span-bearing child, for the traversal witness. -/
def spanlessParent : NavigationTree :=
  NavigationTree.mk ("P") ("module") []
    [NavigationTree.mk ("A") ("function") [{ start := 0, length := 5 }] []]

/-- C5: during the pre-order traversal, a node with at least one span is
emitted exactly once, at the head of its sublist, with a range from the start
of its first span to the end of its last span and the passed parent name as
container (none for the root); a node with zero spans is not emitted, but its
children are still visited with that node's own display name as container. -/
theorem collectSymbols_traversal (document : Document) (utils : TsUtils)
    (tree : NavigationTree) (container : Option String) :
    (tree.spans = [] →
      collectSymbols document utils tree container =
        tree.childItems.flatMap fun c =>
          collectSymbols document utils c (some tree.text)) ∧
    (∀ s e, tree.spans.head? = some s → tree.spans.getLast? = some e →
      collectSymbols document utils tree container =
        SymbolInformation.create tree.text (utils.symbolKindFromString tree.kind)
          { start := document.positionAt s.start
            «end» := document.positionAt (e.start + e.length) }
          document.getURL container ::
          tree.childItems.flatMap fun c =>
            collectSymbols document utils c (some tree.text)) :=
  ⟨collectSymbols_of_spans_nil document utils tree container,
   fun s e hs he => collectSymbols_of_spans_cons document utils tree container s e hs he⟩

/-- C5 witness: the traversal theorem at the spanless parent (child emitted
under the parent's name, parent skipped) and at the example root with a span. -/
theorem collectSymbols_traversal_witness :
    spanlessParent.spans = [] ∧
    collectSymbols docA utilsTS spanlessParent none =
      [SymbolInformation.create ("A") 5 (lineRange 0 5) ("file:///doc.svelte.ts")
        (some ("P"))] ∧
    rabTree.spans.head? = some { start := 0, length := 5 } ∧
    rabTree.spans.getLast? = some { start := 0, length := 5 } ∧
    collectSymbols docA utilsTS rabTree none =
      [SymbolInformation.create ("R") 5 (lineRange 0 5) ("file:///doc.svelte.ts") none,
       SymbolInformation.create ("A") 5 (lineRange 0 5) ("file:///doc.svelte.ts")
         (some ("R")),
       SymbolInformation.create ("B") 5 (lineRange 1 3) ("file:///doc.svelte.ts")
         (some ("A"))] :=
  ⟨rfl,
   ((collectSymbols_traversal docA utilsTS spanlessParent none).1 rfl).trans (by decide),
   rfl, rfl,
   ((collectSymbols_traversal docA utilsTS rabTree none).2
       { start := 0, length := 5 } { start := 0, length := 5 } rfl rfl).trans (by decide)⟩

/-- C4: with the symbols flag on, the first collected record is excluded from
the output, every later record whose container equals the first record's name
is rewritten to the fixed generic container label script, and all other
records are returned unchanged. -/
theorem getDocumentSymbols_reparenting (host : Host) (utils : TsUtils)
    (getService : Document → LanguageService) (document : Document)
    (henable : host.getConfig ("typescript.documentSymbols.enable") = true) :
    ∀ first rest,
      collectSymbols document utils
          ((getService document).getNavigationTree document.getFilePath) none
        = first :: rest →
      (getDocumentSymbols host utils getService document).fst =
        some (rest.map fun symbol =>
          if symbol.containerName = some first.name then
            { symbol with containerName := some ("script") }
          else symbol) := by
  intro first rest h
  simp [getDocumentSymbols, henable, h]

/-- C4 witness: on the example tree (root R spanning the file, child A with
grandchild B) the output is exactly two records, A re-parented to the generic
label script and B keeping container A. -/
theorem getDocumentSymbols_reparenting_witness :
    hostOn.getConfig ("typescript.documentSymbols.enable") = true ∧
    collectSymbols docA utilsTS rabTree none =
      SymbolInformation.create ("R") 5 (lineRange 0 5) ("file:///doc.svelte.ts") none ::
        [SymbolInformation.create ("A") 5 (lineRange 0 5) ("file:///doc.svelte.ts")
           (some ("R")),
         SymbolInformation.create ("B") 5 (lineRange 1 3) ("file:///doc.svelte.ts")
           (some ("A"))] ∧
    (getDocumentSymbols hostOn utilsTS (fun _ => rabService) docA).fst =
      some [SymbolInformation.create ("A") 5 (lineRange 0 5) ("file:///doc.svelte.ts")
              (some ("script")),
            SymbolInformation.create ("B") 5 (lineRange 1 3) ("file:///doc.svelte.ts")
              (some ("A"))] :=
  ⟨rfl, by decide,
   (getDocumentSymbols_reparenting hostOn utilsTS (fun _ => rabService) docA rfl
       (SymbolInformation.create ("R") 5 (lineRange 0 5) ("file:///doc.svelte.ts") none)
       [SymbolInformation.create ("A") 5 (lineRange 0 5) ("file:///doc.svelte.ts")
          (some ("R")),
        SymbolInformation.create ("B") 5 (lineRange 1 3) ("file:///doc.svelte.ts")
          (some ("A"))]
       (by decide)).trans (by decide)⟩

/-- C9: the first collected record is removed unconditionally: when the root
node has zero spans the collected list comes entirely from the root's
children, so its first record is a genuine child symbol, yet it is still
dropped from the output and later records whose container equals its name are
re-labelled. -/
theorem getDocumentSymbols_drops_first_unconditionally (host : Host)
    (utils : TsUtils) (getService : Document → LanguageService)
    (document : Document)
    (henable : host.getConfig ("typescript.documentSymbols.enable") = true)
    (hroot :
      ((getService document).getNavigationTree document.getFilePath).spans = []) :
    ∀ first rest,
      collectSymbols document utils
          ((getService document).getNavigationTree document.getFilePath) none
        = first :: rest →
      (first :: rest =
        ((getService document).getNavigationTree document.getFilePath).childItems.flatMap
          fun c => collectSymbols document utils c
            (some ((getService document).getNavigationTree document.getFilePath).text)) ∧
      (getDocumentSymbols host utils getService document).fst =
        some (rest.map fun symbol =>
          if symbol.containerName = some first.name then
            { symbol with containerName := some ("script") }
          else symbol) := by
  intro first rest h
  constructor
  · rw [← h]
    exact collectSymbols_of_spans_nil document utils _ none hroot
  · simp [getDocumentSymbols, henable, h]

/-- C9 witness: with the spanless root, the genuine first symbol A is silently
dropped and only B remains, its container re-labelled to script because it
equalled the dropped record's name. -/
theorem getDocumentSymbols_drops_first_unconditionally_witness :
    hostOn.getConfig ("typescript.documentSymbols.enable") = true ∧
    noRootSpanTree.spans = [] ∧
    collectSymbols docA utilsTS noRootSpanTree none =
      SymbolInformation.create ("A") 5 (lineRange 0 5) ("file:///doc.svelte.ts")
          (some ("R")) ::
        [SymbolInformation.create ("B") 5 (lineRange 1 3) ("file:///doc.svelte.ts")
           (some ("A"))] ∧
    (getDocumentSymbols hostOn utilsTS (fun _ => noRootSpanService) docA).fst =
      some [SymbolInformation.create ("B") 5 (lineRange 1 3) ("file:///doc.svelte.ts")
              (some ("script"))] :=
  ⟨rfl, rfl, by decide,
   ((getDocumentSymbols_drops_first_unconditionally hostOn utilsTS
        (fun _ => noRootSpanService) docA rfl rfl
        (SymbolInformation.create ("A") 5 (lineRange 0 5) ("file:///doc.svelte.ts")
          (some ("R")))
        [SymbolInformation.create ("B") 5 (lineRange 1 3) ("file:///doc.svelte.ts")
          (some ("A"))]
        (by decide)).2).trans (by decide)⟩

/-- C6: with the diagnostics flag on, syntactic diagnostics are always
requested; semantic diagnostics are requested if and only if the script kind
is statically typed (visible in the call log); and the result lists all
mapped syntactic diagnostics before all mapped semantic ones, preserving the
engine's emission order within each group. -/
theorem getDiagnostics_syntactic_then_semantic (host : Host) (utils : TsUtils)
    (getService : Document → LanguageService) (document : Document)
    (henable : host.getConfig ("typescript.diagnostics.enable") = true) :
    ((getDiagnostics host utils getService document).snd =
      [BridgeCall.getLanguageServiceForDocument,
       BridgeCall.getSyntacticDiagnostics document.getFilePath] ++
        (if utils.getScriptKindFromAttributes document.getAttributes = ScriptKind.TS
         then [BridgeCall.getSemanticDiagnostics document.getFilePath]
         else [])) ∧
    ((getDiagnostics host utils getService document).fst =
      (((getService document).getSyntacticDiagnostics document.getFilePath).map
          fun diagnostic =>
          { range := convertRange document diagnostic.start diagnostic.length
            severity := DiagnosticSeverity.Error
            source :=
              if utils.getScriptKindFromAttributes document.getAttributes
                  = ScriptKind.TS
              then ("ts") else ("js")
            message :=
              utils.flattenDiagnosticMessageText diagnostic.messageText ("\n") }) ++
        (if utils.getScriptKindFromAttributes document.getAttributes = ScriptKind.TS
         then ((getService document).getSemanticDiagnostics document.getFilePath).map
            fun diagnostic =>
            { range := convertRange document diagnostic.start diagnostic.length
              severity := DiagnosticSeverity.Error
              source := ("ts")
              message :=
                utils.flattenDiagnosticMessageText diagnostic.messageText ("\n") }
         else [])) := by
  by_cases hts :
      utils.getScriptKindFromAttributes document.getAttributes = ScriptKind.TS <;>
    constructor <;> simp [getDiagnostics, henable, hts]

/-- C6 witness: on a typed document the log requests syntactic then semantic
analysis and both groups appear in order; on an untyped one no semantic
request is made. -/
theorem getDiagnostics_syntactic_then_semantic_witness :
    hostOn.getConfig ("typescript.diagnostics.enable") = true ∧
    (getDiagnostics hostOn utilsTS (fun _ => oneDiagService) docA).snd =
      [BridgeCall.getLanguageServiceForDocument,
       BridgeCall.getSyntacticDiagnostics ("/doc.svelte.ts"),
       BridgeCall.getSemanticDiagnostics ("/doc.svelte.ts")] ∧
    (getDiagnostics hostOn utilsJS (fun _ => oneDiagService) docA).snd =
      [BridgeCall.getLanguageServiceForDocument,
       BridgeCall.getSyntacticDiagnostics ("/doc.svelte.ts")] ∧
    (getDiagnostics hostOn utilsJS (fun _ => oneDiagService) docA).fst =
      [{ range := lineRange 0 3
         severity := DiagnosticSeverity.Error
         source := "js"
         message := "syn issue" }] :=
  ⟨rfl,
   ((getDiagnostics_syntactic_then_semantic hostOn utilsTS
       (fun _ => oneDiagService) docA rfl).1).trans (by decide),
   ((getDiagnostics_syntactic_then_semantic hostOn utilsJS
       (fun _ => oneDiagService) docA rfl).1).trans (by decide),
   ((getDiagnostics_syntactic_then_semantic hostOn utilsJS
       (fun _ => oneDiagService) docA rfl).2).trans (by decide)⟩

/-- C7: with the hover flag on, doHover queries quick-info at the offset of
the given position; an absent engine answer yields an absent result (no
failure), and a present one yields the info's span translated to a host range
and the engine's rendered display text as content. -/
theorem doHover_quickinfo (host : Host) (utils : TsUtils)
    (getService : Document → LanguageService) (document : Document)
    (position : Position)
    (henable : host.getConfig ("typescript.hover.enable") = true) :
    ((getService document).getQuickInfoAtPosition document.getFilePath
        (document.offsetAt position) = none →
      (doHover host utils getService document position).fst = none) ∧
    (∀ info,
      (getService document).getQuickInfoAtPosition document.getFilePath
          (document.offsetAt position) = some info →
      (doHover host utils getService document position).fst =
        some { range := convertRange document info.textSpan.start info.textSpan.length
               contents := { language := ("ts")
                             value := utils.displayPartsToString info.displayParts } }) := by
  constructor
  · intro h
    simp [doHover, henable, h]
  · intro info h
    simp [doHover, henable, h]

/-- C7 witness: the quick-info theorem at a service with no info (absent
result) and at one reporting a span and display parts. -/
theorem doHover_quickinfo_witness :
    hostOn.getConfig ("typescript.hover.enable") = true ∧
    (doHover hostOn utilsTS (fun _ => emptyService) docA posZero).fst = none ∧
    infoService.getQuickInfoAtPosition ("/doc.svelte.ts") 0 =
      some { textSpan := { start := 2, length := 3 }
             displayParts := [("let "), ("x")] } ∧
    (doHover hostOn utilsTS (fun _ => infoService) docA posZero).fst =
      some { range := lineRange 2 5
             contents := { language := "ts", value := "let x" } } :=
  ⟨rfl,
   (doHover_quickinfo hostOn utilsTS (fun _ => emptyService) docA posZero rfl).1 rfl,
   rfl,
   ((doHover_quickinfo hostOn utilsTS (fun _ => infoService) docA posZero rfl).2
       { textSpan := { start := 2, length := 3 }
         displayParts := [("let "), ("x")] } rfl).trans (by decide)⟩

/-- C8: with the completions flag on, the engine is asked for completions at
the position's offset with module-export suggestions enabled and the trigger
character forwarded verbatim; an absent engine result maps to the empty
sequence, and each entry maps to label = name, kind via the translation
table, sort key = the engine sort text, commit characters from the per-kind
table, and preselect = the engine's recommended flag. -/
theorem getCompletions_mapping (host : Host) (utils : TsUtils)
    (getService : Document → LanguageService) (document : Document)
    (position : Position) (triggerCharacter : Option String)
    (henable : host.getConfig ("typescript.completions.enable") = true) :
    (BridgeCall.getCompletionsAtPosition document.getFilePath
        (document.offsetAt position)
        { includeCompletionsForModuleExports := true
          triggerCharacter := triggerCharacter }
      ∈ (getCompletions host utils getService document position
          triggerCharacter).snd) ∧
    ((getService document).getCompletionsAtPosition document.getFilePath
        (document.offsetAt position)
        { includeCompletionsForModuleExports := true
          triggerCharacter := triggerCharacter } = none →
      (getCompletions host utils getService document position
        triggerCharacter).fst = []) ∧
    (∀ info,
      (getService document).getCompletionsAtPosition document.getFilePath
          (document.offsetAt position)
          { includeCompletionsForModuleExports := true
            triggerCharacter := triggerCharacter } = some info →
      (getCompletions host utils getService document position
          triggerCharacter).fst =
        info.entries.map fun comp =>
          { label := comp.name
            kind := utils.scriptElementKindToCompletionItemKind comp.kind
            sortText := comp.sortText
            commitCharacters := utils.getCommitCharactersForScriptElement comp.kind
            preselect := comp.isRecommended }) := by
  refine ⟨?_, fun h => ?_, fun info h => ?_⟩
  · cases hc : (getService document).getCompletionsAtPosition document.getFilePath
        (document.offsetAt position)
        { includeCompletionsForModuleExports := true
          triggerCharacter := triggerCharacter } <;>
      simp [getCompletions, henable, hc]
  · simp [getCompletions, henable, h]
  · simp [getCompletions, henable, h]

/-- C8 witness: the spec's worked example entry maps to the expected record,
and the options passed to the engine appear in the call log. -/
theorem getCompletions_mapping_witness :
    hostOn.getConfig ("typescript.completions.enable") = true ∧
    compService.getCompletionsAtPosition ("/doc.svelte.ts") 0
        { includeCompletionsForModuleExports := true
          triggerCharacter := some (".") } =
      some { entries :=
        [{ name := "foo", kind := "method", sortText := "0", isRecommended := true }] } ∧
    (getCompletions hostOn utilsTS (fun _ => compService) docA posZero
        (some ("."))).fst =
      [{ label := "foo"
         kind := 2
         sortText := "0"
         commitCharacters := some [(".")]
         preselect := true }] ∧
    (getCompletions hostOn utilsTS (fun _ => emptyService) docA posZero none).fst
      = [] :=
  ⟨rfl, rfl,
   ((getCompletions_mapping hostOn utilsTS (fun _ => compService) docA posZero
       (some (".")) rfl).2.2
       { entries :=
         [{ name := "foo", kind := "method", sortText := "0", isRecommended := true }] }
       rfl).trans (by decide),
   (getCompletions_mapping hostOn utilsTS (fun _ => emptyService) docA posZero
       none rfl).2.1 rfl⟩

/-- C10: whenever doHover produces a result, its content carries the language
label ts, for any utils and document — so for untyped script kinds as well:
the typed/untyped distinction made by getDiagnostics is never applied on the
hover path. -/
theorem doHover_language_always_ts (host : Host) (utils : TsUtils)
    (getService : Document → LanguageService) (document : Document)
    (position : Position) :
    ∀ h, (doHover host utils getService document position).fst = some h →
      h.contents.language = ("ts") := by
  intro h hh
  cases hcfg : host.getConfig ("typescript.hover.enable") with
  | false => simp [doHover, hcfg] at hh
  | true =>
    cases hinfo : (getService document).getQuickInfoAtPosition document.getFilePath
        (document.offsetAt position) with
    | none => simp [doHover, hcfg, hinfo] at hh
    | some info =>
      simp [doHover, hcfg, hinfo] at hh
      rw [← hh]

/-- C10 witness: a hover produced against an untyped script kind still carries
the ts language label. -/
theorem doHover_language_always_ts_witness :
    (doHover hostOn utilsJS (fun _ => infoService) docA posZero).fst =
      some { range := lineRange 2 5
             contents := { language := "ts", value := "let x" } } ∧
    ({ range := lineRange 2 5
       contents := { language := "ts", value := "let x" } } : Hover).contents.language
      = ("ts") :=
  ⟨by decide,
   doHover_language_always_ts hostOn utilsJS (fun _ => infoService) docA posZero
     { range := lineRange 2 5
       contents := { language := "ts", value := "let x" } } (by decide)⟩

end SvelteLS
